import Mathlib

/-!
Verification of the spend-analyzer statement-intake pipeline and insight
engine, as a shallow embedding in Lean 4.

Frontend TypeScript (under frontend/src) is embedded directly from the
source. The Python backend is not part of the staged sources, so the
backend components (IngestionService, ParseJobController's validation step,
PayoffPlanner, Budget write boundary) are modelled from the spec, each such
definition saying so in its doc comment.
-/

/-- Parse status enumeration, from frontend/src/types.ts `ParseStatus`:
'pending' | 'processing' | 'completed' | 'failed' | 'needs_review'. -/
inductive ParseStatus where
  | pending
  | processing
  | completed
  | failed
  | needs_review
deriving DecidableEq

/-- A Statement row as the pipeline sees it: identity, content fingerprint
(`file_hash` in types.ts), derived status. Other metadata fields are not
needed by the claims. -/
structure MStatement where
  id : Nat
  file_hash : Nat
  status : ParseStatus
deriving DecidableEq

/-- A ParseJob row: belongs to one Statement, has a status. -/
structure MParseJob where
  id : Nat
  statement_id : Nat
  status : ParseStatus
deriving DecidableEq

/-- Modelled from the spec: ContentHasher computes a stable fingerprint of
the document bytes (the backend hashing code is not in the staged sources).
Any deterministic function of the bytes realizes the contract; a simple
polynomial rolling hash is used here. -/
def fingerprint (bytes : List Nat) : Nat :=
  bytes.foldl (fun h b => (h * 31 + b) % 4294967296) 5381

/-- The ledger state owned by IngestionService: Statement rows, the blob
store keyed by content fingerprint, and ParseJob rows. -/
structure IngestState where
  statements : List MStatement
  documents : List Nat
  jobs : List MParseJob
  nextId : Nat
deriving DecidableEq

/-- Lookup of an existing Statement by content fingerprint. -/
def findByHash (st : IngestState) (fp : Nat) : Option MStatement :=
  st.statements.find? (fun s => s.file_hash == fp)

/-- Modelled from the spec: IngestionService.submit (backend not in the
staged sources). Computes the document fingerprint before any extraction;
if a Statement with the same fingerprint already exists, returns that
Statement unchanged (no duplicate storage, no duplicate job); otherwise
persists the document, creates a Statement in `pending` and an initial
ParseJob. -/
def submit (st : IngestState) (bytes : List Nat) : MStatement × IngestState :=
  let fp := fingerprint bytes
  match findByHash st fp with
  | some s => (s, st)
  | none =>
      let s : MStatement := ⟨st.nextId, fp, ParseStatus.pending⟩
      let j : MParseJob := ⟨st.nextId, st.nextId, ParseStatus.pending⟩
      (s, ⟨s :: st.statements, fp :: st.documents, j :: st.jobs, st.nextId + 1⟩)

/-- Modelled from the spec: the password gate of IngestionService.submit.
`missing` and `wrong` stand for the extractor's PasswordRequired and
InvalidPassword outcomes; the failure is synchronous and no Statement is
created. The error strings are the upload surface's signals as the
frontend receives them (frontend/src/pages/Upload.tsx). -/
inductive PasswordCheck where
  | ok
  | missing
  | wrong
deriving DecidableEq

/-- Modelled from the spec: submit with the password gate; on a password
failure the caller gets the dedicated error signal and the state is not
touched. -/
def submitChecked (st : IngestState) (bytes : List Nat) (pw : PasswordCheck) :
    Except String (MStatement × IngestState) :=
  match pw with
  | PasswordCheck.missing => Except.error "PASSWORD_REQUIRED"
  | PasswordCheck.wrong => Except.error "INVALID_PASSWORD"
  | PasswordCheck.ok => Except.ok (submit st bytes)

/-- A candidate transaction as returned by the StructuringOracle:
date, description, amount, category label, confidence. -/
structure Candidate where
  date : String
  description : String
  amount : Int
  categoryLabel : String
  confidence : ℚ
deriving DecidableEq

/-- A persisted Transaction as far as the taxonomy claims see it. -/
structure MTransaction where
  description : String
  amount : Int
  category : String
  needs_review : Bool
deriving DecidableEq

/-- Modelled from the spec: step (3) of the ParseJobController processing
algorithm (backend not in the staged sources). The returned category label
is validated against TaxonomyStore; any label not found verbatim is coerced
to "uncategorized" and the transaction is flagged needs_review. A matched
label keeps the transaction, flagging it only when confidence is below the
configured threshold. -/
def validateCandidate (taxonomy : List String) (threshold : ℚ) (c : Candidate) :
    MTransaction :=
  if taxonomy.contains c.categoryLabel then
    { description := c.description
      amount := c.amount
      category := c.categoryLabel
      needs_review := decide (c.confidence < threshold) }
  else
    { description := c.description
      amount := c.amount
      category := "uncategorized"
      needs_review := true }

/-- Upload page status, from frontend/src/pages/Upload.tsx `UploadStatus`:
'idle' | 'uploading' | 'success' | 'error' | 'password-required'. -/
inductive UploadStatus where
  | idle
  | uploading
  | success
  | error
  | passwordRequired
deriving DecidableEq

/-- The React state of the upload page (Upload.tsx component state). -/
structure UploadPageState where
  status : UploadStatus
  error : Option String
  uploadedStatement : Option MStatement
  password : String
  selectedFile : Option String
deriving DecidableEq

/-- The outcome of `uploadStatement` as `handleUpload` observes it: the
parsed Statement, or a thrown error's message string. -/
inductive UploadOutcome where
  | ok (s : MStatement)
  | failed (msg : String)
deriving DecidableEq

/-- Embeds `handleUpload` of frontend/src/pages/Upload.tsx (lines 151-178):
status goes to uploading with the error cleared, then on success the
statement is stored and status becomes success with the password cleared;
on a caught error with message PASSWORD_REQUIRED or INVALID_PASSWORD the
page moves to password-required retaining the file, showing the
incorrect-password message exactly for INVALID_PASSWORD; any other error
message moves the page to the error state. -/
def handleUpload (st : UploadPageState) (file : String) (outcome : UploadOutcome) :
    UploadPageState :=
  let st := { st with status := UploadStatus.uploading, error := none }
  match outcome with
  | UploadOutcome.ok s =>
      { st with uploadedStatement := some s
                status := UploadStatus.success
                password := "" }
  | UploadOutcome.failed msg =>
      if msg = "PASSWORD_REQUIRED" ∨ msg = "INVALID_PASSWORD" then
        { st with status := UploadStatus.passwordRequired
                  selectedFile := some file
                  error :=
                    if msg = "INVALID_PASSWORD" then
                      some "Incorrect password, please try again."
                    else none }
      else
        { st with error := some msg, status := UploadStatus.error }

/-- Is a parse status terminal, per spec section 4.2: final status is one
of completed, needs_review, failed. -/
def isTerminal : ParseStatus → Bool
  | ParseStatus.completed => true
  | ParseStatus.needs_review => true
  | ParseStatus.failed => true
  | _ => false

/-- Modelled from the spec: the ParseJobController state machine's allowed
transitions (backend not in the staged sources): pending to processing on
pickup, processing to completed, needs_review or failed; nothing leaves a
terminal status. -/
def stepAllowed : ParseStatus → ParseStatus → Bool
  | ParseStatus.pending, ParseStatus.processing => true
  | ParseStatus.processing, ParseStatus.completed => true
  | ParseStatus.processing, ParseStatus.needs_review => true
  | ParseStatus.processing, ParseStatus.failed => true
  | _, _ => false

/-- A ParseJob as the statement-detail page lists it, with its creation
time (jobs are listed most-recent-first). -/
structure JobRec where
  id : Nat
  created_at : Nat
  status : ParseStatus
deriving DecidableEq

/-- Embeds `const latestJob = jobs[0]` of
frontend/src/pages/StatementDetail.tsx line 102: the first job of the list
is taken as the statement's current job. -/
def latestJob (jobs : List JobRec) : Option JobRec := jobs.head?

/-- The status the statement-detail page displays: the status of jobs[0]. -/
def displayedStatus (jobs : List JobRec) : Option ParseStatus :=
  (latestJob jobs).map (fun j => j.status)

/-- The most-recently-created job of a list, by a left fold keeping the
job with the larger creation time. -/
def mostRecentJob (jobs : List JobRec) : Option JobRec :=
  match jobs with
  | [] => none
  | j :: rest => some (rest.foldl (fun acc k => if acc.created_at < k.created_at then k else acc) j)

/-- A tracked upload of the processing context, from
frontend/src/contexts/ProcessingContext.tsx `TrackedUpload`. -/
structure TrackedUpload where
  id : Nat
  filename : String
deriving DecidableEq

/-- What one `getStatement` call inside the polling interval yields: the
statement's status, or a fetch error (the catch branch). -/
inductive FetchResult where
  | got (status : ParseStatus)
  | fetchError
deriving DecidableEq

/-- A toast notification the polling step emits. -/
inductive Notification where
  | success (filename : String)
  | failure (filename : String)
deriving DecidableEq

/-- Did the fetch observe a terminal status (completed, needs_review or
failed)? A fetch error observes nothing terminal. -/
def isDoneFetch : FetchResult → Bool
  | FetchResult.got s => isTerminal s
  | FetchResult.fetchError => false

/-- Embeds the body of the polling interval of
frontend/src/contexts/ProcessingContext.tsx (lines 42-57) for one tracked
upload: completed or needs_review emits a success toast and drops the
upload; failed emits an error toast and drops it; any other status, or an
error fetching, keeps the upload for the next poll. -/
def pollUpload (u : TrackedUpload) (r : FetchResult) :
    Option TrackedUpload × List Notification :=
  match r with
  | FetchResult.got ParseStatus.completed => (none, [Notification.success u.filename])
  | FetchResult.got ParseStatus.needs_review => (none, [Notification.success u.filename])
  | FetchResult.got ParseStatus.failed => (none, [Notification.failure u.filename])
  | FetchResult.got _ => (some u, [])
  | FetchResult.fetchError => (some u, [])

/-- One tick of the polling interval over the whole tracked list, in list
order, collecting the remaining uploads and the notifications. -/
def pollStep (us : List TrackedUpload) (fetch : Nat → FetchResult) :
    List TrackedUpload × List Notification :=
  match us with
  | [] => ([], [])
  | u :: rest =>
      let first := pollUpload u (fetch u.id)
      let later := pollStep rest fetch
      (first.1.toList ++ later.1, first.2 ++ later.2)

/-- The tracked set after n polling ticks, the fetch outcome being allowed
to differ from tick to tick (`fetch n id` is the status fetched for
statement id at tick n). -/
def pollTrace (init : List TrackedUpload) (fetch : Nat → Nat → FetchResult) :
    Nat → List TrackedUpload
  | 0 => init
  | n + 1 => (pollStep (pollTrace init fetch n) (fetch n)).1

/-- Payoff plan status, from frontend/src/types.ts `PayoffPlanResponse`
(lines 315-325): 'ok' | 'payment_too_low' | 'invalid_payment' |
'max_months_exceeded' | 'paid'. -/
inductive PlanStatus where
  | ok
  | payment_too_low
  | invalid_payment
  | max_months_exceeded
  | paid
deriving DecidableEq

/-- One amortization schedule row, from types.ts `PayoffScheduleRow`. -/
structure PayoffRow where
  month : Nat
  starting_balance : ℚ
  interest : ℚ
  payment : ℚ
  principal : ℚ
  ending_balance : ℚ
deriving DecidableEq

/-- The payoff plan response, from types.ts `PayoffPlanResponse`. -/
structure PayoffPlan where
  months_to_payoff : Option Nat
  total_interest : Option ℚ
  total_paid : Option ℚ
  schedule : List PayoffRow
  status : PlanStatus
deriving DecidableEq

/-- The monthly interest rate for a given APR percentage, per spec section
4.6: `interest = balance × (apr/12/100)`. -/
def monthlyRate (apr : ℚ) : ℚ := apr / 12 / 100

/-- The maximum iteration cap of the payoff simulation (600 months), per
spec sections 4.6 and 6 (`maxPayoffMonths`). -/
def maxPayoffMonths : Nat := 600

/-- Modelled from the spec: the month-by-month payoff simulation of
PayoffPlanner (backend not in the staged sources). Each month accrues
`interest = balance × rate`, pays `principal = payment − interest` capped
so principal never exceeds the remaining balance (the final month's
payment is reduced to exactly close the balance), records a row, and stops
when the balance reaches zero or the fuel runs out. Returns the rows and
the final balance. -/
def simulate (rate payment : ℚ) : Nat → Nat → ℚ → List PayoffRow × ℚ
  | 0, _, balance => ([], balance)
  | fuel + 1, month, balance =>
    if balance ≤ 0 then ([], balance)
    else
      ({ month := month
         starting_balance := balance
         interest := balance * rate
         payment := balance * rate + min (payment - balance * rate) balance
         principal := min (payment - balance * rate) balance
         ending_balance := balance - min (payment - balance * rate) balance } ::
          (simulate rate payment fuel (month + 1)
            (balance - min (payment - balance * rate) balance)).1,
        (simulate rate payment fuel (month + 1)
          (balance - min (payment - balance * rate) balance)).2)

/-- Modelled from the spec: PayoffPlanner.plan (backend not in the staged
sources). Validates inputs (non-positive payment or negative balance gives
invalid_payment; a balance already zero at entry gives paid); a payment at
or below the first month's interest accrual gives payment_too_low with no
schedule; otherwise the simulation runs to the 600-month cap, yielding ok
when the balance closed and max_months_exceeded with the partial schedule
when it did not. Total interest and total paid are the running sums of the
emitted rows. -/
def plan (currentBalance monthlyPayment apr : ℚ) : PayoffPlan :=
  if monthlyPayment ≤ 0 ∨ currentBalance < 0 then
    ⟨none, none, none, [], PlanStatus.invalid_payment⟩
  else if currentBalance = 0 then
    ⟨some 0, some 0, some 0, [], PlanStatus.paid⟩
  else if monthlyPayment ≤ currentBalance * monthlyRate apr then
    ⟨none, none, none, [], PlanStatus.payment_too_low⟩
  else
    let res := simulate (monthlyRate apr) monthlyPayment maxPayoffMonths 1 currentBalance
    if res.2 = 0 then
      ⟨some res.1.length, some ((res.1.map (fun r => r.interest)).sum),
        some ((res.1.map (fun r => r.payment)).sum), res.1, PlanStatus.ok⟩
    else
      ⟨some res.1.length, some ((res.1.map (fun r => r.interest)).sum),
        some ((res.1.map (fun r => r.payment)).sum), res.1, PlanStatus.max_months_exceeded⟩

/-- What the payoff planner card renders in its result area. -/
inductive PlannerView where
  | noData
  | tooLowMessage
  | scheduleTable (rows : List PayoffRow)
deriving DecidableEq

/-- Embeds the result area of `PayoffPlannerCard` (Planning page, lines
484-521): with no data a placeholder; when the status is neither ok nor
paid, a single payment-too-low message; otherwise the stat row and the
schedule table showing the first 12 rows. -/
def renderPlanner (data : Option PayoffPlan) : PlannerView :=
  match data with
  | none => PlannerView.noData
  | some d =>
      if d.status ≠ PlanStatus.ok ∧ d.status ≠ PlanStatus.paid then
        PlannerView.tooLowMessage
      else
        PlannerView.scheduleTable (d.schedule.take 12)

/-- A Budget row, from frontend/src/types.ts `Budget`: scope is 'total' or
'category'. -/
structure MBudget where
  id : Nat
  scope : String
  category_id : Option Nat
  monthly_limit : ℚ
deriving DecidableEq

/-- The write boundary's answer to a budget creation request. -/
inductive BudgetWrite where
  | created (b : MBudget)
  | conflict
deriving DecidableEq

/-- Modelled from the spec: the budget write boundary (backend not in the
staged sources). A request for a second total-scope budget is rejected
with a specific conflict signal rather than silently overwritten; any
other request creates the row. -/
def createBudget (budgets : List MBudget) (nextId : Nat) (scope : String)
    (category_id : Option Nat) (lim : ℚ) : BudgetWrite × List MBudget :=
  if scope = "total" ∧ budgets.any (fun b => b.scope == "total") then
    (BudgetWrite.conflict, budgets)
  else
    (BudgetWrite.created ⟨nextId, scope, category_id, lim⟩,
      ⟨nextId, scope, category_id, lim⟩ :: budgets)

/-- How many total-scope budgets a list holds. -/
def countTotal (budgets : List MBudget) : Nat :=
  (budgets.filter (fun b => b.scope == "total")).length

/-- Embeds `const hasTotalBudget = budgets.some(b => b.scope === 'total')`
of frontend/src/pages/Settings.tsx line 187. -/
def hasTotalBudget (budgets : List MBudget) : Bool :=
  budgets.any (fun b => b.scope == "total")

/-- Embeds the scope Select of the add-budget form
(frontend/src/pages/Settings.tsx lines 221-225): the 'total' option is
offered only when no total-scope budget exists; 'category' always is. -/
def scopeOptions (budgets : List MBudget) : List String :=
  (if hasTotalBudget budgets then [] else ["total"]) ++ ["category"]

/-- The trend-chart frequency, from the Dashboard page (`Frequency`):
'daily' | 'weekly' | 'monthly' | 'yearly'. -/
inductive Frequency where
  | daily
  | weekly
  | monthly
  | yearly
deriving DecidableEq

/-- One daily spend bucket, from frontend/src/types.ts `SpendByDay` (the
transaction count is not needed by the claims). -/
structure SpendByDay where
  day : String
  total_amount : ℚ
deriving DecidableEq

/-- One aggregated bucket, from the Dashboard page `AggregatedBucket`. -/
structure AggregatedBucket where
  label : String
  total_amount : ℚ
deriving DecidableEq

/-- Byte-wise ordering of character lists: the model of the JS comparator
`(a, b) => a.localeCompare(b)` being at most zero, adequate for the ASCII
date keys the Dashboard produces. -/
def charListLe : List Char → List Char → Bool
  | [], _ => true
  | _ :: _, [] => false
  | a :: as, b :: bs =>
    if a.toNat < b.toNat then true
    else if b.toNat < a.toNat then false
    else charListLe as bs

/-- Label ordering used by the bucket sort. -/
def labelLe (a b : String) : Bool := charListLe a.data b.data

/-- Civil-calendar day number of a Gregorian date (days since 1970-01-01),
the standard days-from-civil computation; models the date arithmetic the
Dashboard delegates to the date-fns library. -/
def daysFromCivil (y m d : Int) : Int :=
  let y2 := if m ≤ 2 then y - 1 else y
  let era := (if 0 ≤ y2 then y2 else y2 - 399) / 400
  let yoe := y2 - era * 400
  let mp := (m + 9) % 12
  let doy := (153 * mp + 2) / 5 + d - 1
  let doe := yoe * 365 + yoe / 4 - yoe / 100 + doy
  era * 146097 + doe - 719468

/-- Inverse of `daysFromCivil`: the Gregorian date of a civil day number. -/
def civilFromDays (z0 : Int) : Int × Int × Int :=
  let z := z0 + 719468
  let era := (if 0 ≤ z then z else z - 146096) / 146097
  let doe := z - era * 146097
  let yoe := (doe - doe / 1460 + doe / 36524 - doe / 146096) / 365
  let y := yoe + era * 400
  let doy := doe - (365 * yoe + yoe / 4 - yoe / 100)
  let mp := (5 * doy + 2) / 153
  let d := doy - (153 * mp + 2) / 5 + 1
  let m := if mp < 10 then mp + 3 else mp - 9
  (if m ≤ 2 then y + 1 else y, m, d)

/-- The year, month and day fields of a 'yyyy-MM-dd' string (the model of
date-fns parseISO on the Dashboard's day keys). -/
def parseDay (s : String) : Int × Int × Int :=
  (((s.take 4).toNat?).getD 0, (((s.drop 5).take 2).toNat?).getD 0,
    (((s.drop 8).take 2).toNat?).getD 0)

/-- Two-digit rendering of a day or month number. -/
def pad2 (n : Int) : String :=
  if n < 10 then "0" ++ toString n else toString n

/-- A date rendered as 'yyyy-MM-dd' (the model of date-fns format). -/
def showDay (y m d : Int) : String :=
  toString y ++ "-" ++ pad2 m ++ "-" ++ pad2 d

/-- The Monday-start week key of a day, the model of
`format(startOfWeek(date, weekStartsOn: 1), 'yyyy-MM-dd')` in
`aggregateByFrequency`: 1970-01-01 was a Thursday, so the JS weekday
(0 = Sunday) of civil day z is (z + 4) mod 7. -/
def weekKey (day : String) : String :=
  let p := parseDay day
  let z := daysFromCivil p.1 p.2.1 p.2.2
  let dow := (z + 4) % 7
  let ws := civilFromDays (z - (dow - 1 + 7) % 7)
  showDay ws.1 ws.2.1 ws.2.2

/-- The month key 'yyyy-MM' of a 'yyyy-MM-dd' day, the model of
`format(date, 'yyyy-MM')`. -/
def monthKey (day : String) : String := day.take 7

/-- The year key 'yyyy' of a 'yyyy-MM-dd' day, the model of
`format(startOfYear(date), 'yyyy')`. -/
def yearKey (day : String) : String := day.take 4

/-- The grouping key of `aggregateByFrequency` for the non-daily
frequencies (Dashboard page, lines 517-525). -/
def bucketKey (freq : Frequency) (day : String) : String :=
  match freq with
  | Frequency.weekly => weekKey day
  | Frequency.monthly => monthKey day
  | Frequency.yearly => yearKey day
  | Frequency.daily => day

/-- The JS Map update `buckets.set(key, (buckets.get(key) || 0) + amount)`
over an insertion-ordered association list: an existing key accumulates in
place, a new key is appended. -/
def upsert (k : String) (v : ℚ) : List (String × ℚ) → List (String × ℚ)
  | [] => [(k, v)]
  | (k', v') :: rest =>
      if k' = k then (k', v' + v) :: rest else (k', v') :: upsert k v rest

/-- The bucket map built by the aggregation loop of
`aggregateByFrequency`. -/
def groupSum (key : String → String) (byDay : List SpendByDay) :
    List (String × ℚ) :=
  byDay.foldl (fun acc d => upsert (key d.day) d.total_amount acc) []

/-- Embeds `aggregateByFrequency` of the Dashboard page (lines 503-533):
daily passes the day buckets through unchanged; the other frequencies
accumulate amounts in a Map keyed by week start, month or year and return
the entries sorted by ascending key. -/
def aggregateByFrequency (byDay : List SpendByDay) (freq : Frequency) :
    List AggregatedBucket :=
  match freq with
  | Frequency.daily =>
      byDay.map (fun d => { label := d.day, total_amount := d.total_amount })
  | _ =>
      ((groupSum (bucketKey freq) byDay).mergeSort
          (fun a b => labelLe a.1 b.1)).map
        (fun kv => { label := kv.1, total_amount := kv.2 })

/-- Total spend over daily buckets. -/
def sumDays (l : List SpendByDay) : ℚ := (l.map (fun d => d.total_amount)).sum

/-- Total spend over aggregated buckets. -/
def sumBuckets (l : List AggregatedBucket) : ℚ :=
  (l.map (fun b => b.total_amount)).sum

/-- Total spend over bucket-map entries. -/
def sumPairs (l : List (String × ℚ)) : ℚ := (l.map (fun kv => kv.2)).sum

/-- C1: submitting the same document bytes a second time returns the
already-existing Statement unchanged and never creates a second Statement,
a duplicate stored document, or a duplicate ParseJob: the second submit
returns exactly the first call's Statement and leaves the state exactly as
the first call left it. -/
theorem submit_idempotent (st : IngestState) (bytes : List Nat) :
    submit (submit st bytes).2 bytes = ((submit st bytes).1, (submit st bytes).2) := by
  unfold submit findByHash
  cases h : st.statements.find? (fun s => s.file_hash == fingerprint bytes) with
  | some s => simp [h]
  | none => simp [h, List.find?]

/-- C2: a candidate whose category label is not found verbatim in the
taxonomy is persisted with category "uncategorized" and needs_review set. -/
theorem validateCandidate_unmatched_flagged (taxonomy : List String) (threshold : ℚ)
    (c : Candidate) (h : taxonomy.contains c.categoryLabel = false) :
    (validateCandidate taxonomy threshold c).category = "uncategorized" ∧
      (validateCandidate taxonomy threshold c).needs_review = true := by
  have h' : c.categoryLabel ∉ taxonomy := by simpa using h
  unfold validateCandidate
  simp [h']

/-- C2 witness: a concrete oracle label absent from the taxonomy is coerced
and flagged. -/
theorem validateCandidate_unmatched_flagged_witness :
    (validateCandidate ["FOOD_AND_DRINK"] (1/2)
        ⟨"2025-01-01", "COFFEE", 120, "SNACKS", 9/10⟩).category = "uncategorized" ∧
      (validateCandidate ["FOOD_AND_DRINK"] (1/2)
        ⟨"2025-01-01", "COFFEE", 120, "SNACKS", 9/10⟩).needs_review = true :=
  validateCandidate_unmatched_flagged ["FOOD_AND_DRINK"] (1/2)
    ⟨"2025-01-01", "COFFEE", 120, "SNACKS", 9/10⟩ (by decide)

/-- C3: a password error signal is reported synchronously and creates no
Statement: the modelled backend submit returns the dedicated error and no
state; and in the frontend handler a caught PASSWORD_REQUIRED or
INVALID_PASSWORD never reaches the success state, moves the page to
password-required retaining the selected file, leaves the uploaded
statement untouched, and shows the incorrect-password message exactly when
the signal was INVALID_PASSWORD. -/
theorem handleUpload_password_signals (stI : IngestState) (bytes : List Nat)
    (st : UploadPageState) (file msg : String)
    (h : msg = "PASSWORD_REQUIRED" ∨ msg = "INVALID_PASSWORD") :
    submitChecked stI bytes PasswordCheck.missing = Except.error "PASSWORD_REQUIRED" ∧
    submitChecked stI bytes PasswordCheck.wrong = Except.error "INVALID_PASSWORD" ∧
    (handleUpload st file (UploadOutcome.failed msg)).status = UploadStatus.passwordRequired ∧
    (handleUpload st file (UploadOutcome.failed msg)).status ≠ UploadStatus.success ∧
    (handleUpload st file (UploadOutcome.failed msg)).selectedFile = some file ∧
    (handleUpload st file (UploadOutcome.failed msg)).uploadedStatement = st.uploadedStatement ∧
    (handleUpload st file (UploadOutcome.failed msg)).error =
      (if msg = "INVALID_PASSWORD" then some "Incorrect password, please try again."
       else none) := by
  refine ⟨rfl, rfl, ?_, ?_, ?_, ?_, ?_⟩ <;> · unfold handleUpload; simp [h]

/-- C3 witness: the INVALID_PASSWORD signal at a concrete page state. -/
theorem handleUpload_password_signals_witness :
    submitChecked ⟨[], [], [], 0⟩ [1, 2] PasswordCheck.missing =
        Except.error "PASSWORD_REQUIRED" ∧
    submitChecked ⟨[], [], [], 0⟩ [1, 2] PasswordCheck.wrong =
        Except.error "INVALID_PASSWORD" ∧
    (handleUpload ⟨UploadStatus.idle, none, none, "", none⟩ "stmt.pdf"
        (UploadOutcome.failed "INVALID_PASSWORD")).status = UploadStatus.passwordRequired ∧
    (handleUpload ⟨UploadStatus.idle, none, none, "", none⟩ "stmt.pdf"
        (UploadOutcome.failed "INVALID_PASSWORD")).status ≠ UploadStatus.success ∧
    (handleUpload ⟨UploadStatus.idle, none, none, "", none⟩ "stmt.pdf"
        (UploadOutcome.failed "INVALID_PASSWORD")).selectedFile = some "stmt.pdf" ∧
    (handleUpload ⟨UploadStatus.idle, none, none, "", none⟩ "stmt.pdf"
        (UploadOutcome.failed "INVALID_PASSWORD")).uploadedStatement =
      (⟨UploadStatus.idle, none, none, "", none⟩ : UploadPageState).uploadedStatement ∧
    (handleUpload ⟨UploadStatus.idle, none, none, "", none⟩ "stmt.pdf"
        (UploadOutcome.failed "INVALID_PASSWORD")).error =
      (if "INVALID_PASSWORD" = "INVALID_PASSWORD" then
          some "Incorrect password, please try again."
        else none) :=
  handleUpload_password_signals ⟨[], [], [], 0⟩ [1, 2]
    ⟨UploadStatus.idle, none, none, "", none⟩ "stmt.pdf" "INVALID_PASSWORD"
    (Or.inr rfl)

/-- Auxiliary: a left fold keeping the later-created job returns the start
job when it was created after every job of the list. -/
theorem foldl_recency (j : JobRec) (l : List JobRec)
    (h : ∀ k ∈ l, k.created_at < j.created_at) :
    l.foldl (fun acc k => if acc.created_at < k.created_at then k else acc) j = j := by
  induction l with
  | nil => rfl
  | cons k rest ih =>
      have hk : k.created_at < j.created_at := h k (List.mem_cons_self k rest)
      have hstep : (if j.created_at < k.created_at then k else j) = j := by
        rw [if_neg (by omega)]
      simp only [List.foldl_cons, hstep]
      exact ih (fun k' hk' => h k' (List.mem_cons_of_mem k hk'))

/-- C4: a ParseJob's terminal status (completed, needs_review or failed) is
reachable only from processing, nothing transitions out of a terminal
status, and the displayed status of a statement whose job list is ordered
most-recent-first (as the frontend receives it, taking jobs[0]) is exactly
the most-recently-created ParseJob's status. -/
theorem parse_status_projection :
    (∀ s t, stepAllowed s t = true → isTerminal t = true → s = ParseStatus.processing) ∧
    (∀ s, isTerminal s = true → ∀ t, stepAllowed s t = false) ∧
    (∀ jobs : List JobRec,
        jobs.Pairwise (fun a b => b.created_at < a.created_at) →
        displayedStatus jobs = (mostRecentJob jobs).map (fun j => j.status)) := by
  refine ⟨?_, ?_, ?_⟩
  · intro s t hst ht
    cases s <;> cases t <;> simp_all [stepAllowed, isTerminal]
  · intro s hs t
    cases s <;> cases t <;> simp_all [stepAllowed, isTerminal]
  · intro jobs hj
    cases jobs with
    | nil => rfl
    | cons j rest =>
        have hlt : ∀ k ∈ rest, k.created_at < j.created_at :=
          (List.pairwise_cons.mp hj).1
        simp only [displayedStatus, latestJob, mostRecentJob, List.head?,
          Option.map_some']
        rw [foldl_recency j rest hlt]

/-- Auxiliary: one upload survives a poll of itself exactly when the fetch
saw nothing terminal. -/
theorem pollUpload_keep (v u : TrackedUpload) (r : FetchResult) :
    u ∈ (pollUpload v r).1.toList ↔ (u = v ∧ isDoneFetch r = false) := by
  cases r with
  | got s => cases s <;> simp [pollUpload, isDoneFetch, isTerminal]
  | fetchError => simp [pollUpload, isDoneFetch]

/-- Auxiliary: membership in the remaining tracked set after one polling
tick: an upload stays tracked exactly when it was tracked and its fetched
status was not terminal. -/
theorem mem_pollStep (us : List TrackedUpload) (f : Nat → FetchResult)
    (u : TrackedUpload) :
    u ∈ (pollStep us f).1 ↔ (u ∈ us ∧ isDoneFetch (f u.id) = false) := by
  induction us with
  | nil => simp [pollStep]
  | cons v rest ih =>
      simp only [pollStep, List.mem_append, pollUpload_keep, ih, List.mem_cons]
      constructor
      · rintro (⟨rfl, h⟩ | ⟨hm, h⟩)
        · exact ⟨Or.inl rfl, h⟩
        · exact ⟨Or.inr hm, h⟩
      · rintro ⟨rfl | hm, h⟩
        · exact Or.inl ⟨rfl, h⟩
        · exact Or.inr ⟨hm, h⟩

/-- C5: the fixed-interval polling step removes a tracked upload exactly
when the fetched status is terminal (completed, needs_review or failed),
emitting exactly one notification at that step — success for completed and
needs_review, failure for failed; while the status is pending or
processing, or the fetch itself errors, the upload stays tracked with no
notification; and over the iterated polling, as soon as some tick fetches
a terminal status the upload is no longer tracked. -/
theorem poll_removes_exactly_terminal :
    (∀ (u : TrackedUpload) (r : FetchResult),
        (pollUpload u r).1 = none ↔ isDoneFetch r = true) ∧
    (∀ (u : TrackedUpload) (r : FetchResult),
        (pollUpload u r).2.length = if isDoneFetch r then 1 else 0) ∧
    (∀ u : TrackedUpload,
        pollUpload u (FetchResult.got ParseStatus.completed) =
          (none, [Notification.success u.filename]) ∧
        pollUpload u (FetchResult.got ParseStatus.needs_review) =
          (none, [Notification.success u.filename]) ∧
        pollUpload u (FetchResult.got ParseStatus.failed) =
          (none, [Notification.failure u.filename]) ∧
        pollUpload u (FetchResult.got ParseStatus.pending) = (some u, []) ∧
        pollUpload u (FetchResult.got ParseStatus.processing) = (some u, []) ∧
        pollUpload u FetchResult.fetchError = (some u, [])) ∧
    (∀ (us : List TrackedUpload) (f : Nat → FetchResult) (u : TrackedUpload),
        u ∈ (pollStep us f).1 ↔ (u ∈ us ∧ isDoneFetch (f u.id) = false)) ∧
    (∀ (u : TrackedUpload) (f : Nat → Nat → FetchResult) (n : Nat),
        isDoneFetch (f n u.id) = true → u ∉ pollTrace [u] f (n + 1)) := by
  refine ⟨?_, ?_, ?_, mem_pollStep, ?_⟩
  · intro u r
    cases r with
    | got s => cases s <;> simp [pollUpload, isDoneFetch, isTerminal]
    | fetchError => simp [pollUpload, isDoneFetch]
  · intro u r
    cases r with
    | got s => cases s <;> simp [pollUpload, isDoneFetch, isTerminal]
    | fetchError => simp [pollUpload, isDoneFetch]
  · intro u
    refine ⟨rfl, rfl, rfl, rfl, rfl, rfl⟩
  · intro u f n h hmem
    have := (mem_pollStep (pollTrace [u] f n) (f n) u).mp hmem
    rw [this.2] at h
    exact Bool.false_ne_true h

/-- Auxiliary: the balance can never be driven below zero (the principal is
capped at the remaining balance), so a simulation that stops before its
fuel runs out stopped at balance exactly zero; hence a nonzero final
balance means every month of fuel emitted a row. -/
theorem simulate_length (rate payment : ℚ) :
    ∀ (fuel month : Nat) (b : ℚ), 0 ≤ b →
      (simulate rate payment fuel month b).2 ≠ 0 →
      (simulate rate payment fuel month b).1.length = fuel := by
  intro fuel
  induction fuel with
  | zero => intro month b hb hfin; rfl
  | succ fuel ih =>
      intro month b hb hfin
      by_cases hle : b ≤ 0
      · exfalso
        rw [simulate, if_pos hle] at hfin
        exact hfin (le_antisymm hle hb)
      · rw [simulate, if_neg hle] at hfin ⊢
        have hend : 0 ≤ b - min (payment - b * rate) b :=
          sub_nonneg.mpr (min_le_right _ _)
        simp only [List.length_cons]
        rw [ih (month + 1) _ hend hfin]

/-- Auxiliary: with a zero monthly rate and a positive payment, starting
from a balance of k payments the simulation emits min k fuel rows, each
with zero interest, and leaves k - min k fuel payments outstanding. -/
theorem simulate_zero_rate (p : ℚ) (hp : 0 < p) :
    ∀ (fuel month k : Nat),
      (simulate 0 p fuel month ((k : ℚ) * p)).1.length = min k fuel ∧
      (simulate 0 p fuel month ((k : ℚ) * p)).2 = ((k - min k fuel : ℕ) : ℚ) * p ∧
      ∀ r ∈ (simulate 0 p fuel month ((k : ℚ) * p)).1, r.interest = 0 := by
  intro fuel
  induction fuel with
  | zero =>
      intro month k
      refine ⟨by simp [simulate], by simp [simulate], ?_⟩
      intro r hr
      simp [simulate] at hr
  | succ fuel ih =>
      intro month k
      cases k with
      | zero =>
          have hb : ((0 : ℕ) : ℚ) * p ≤ 0 := by simp
          rw [simulate, if_pos hb]
          refine ⟨by simp, by simp, ?_⟩
          intro r hr
          simp at hr
      | succ j =>
          have hbpos : 0 < ((j + 1 : ℕ) : ℚ) * p :=
            mul_pos (by exact_mod_cast Nat.succ_pos j) hp
          have hguard : ¬ (((j + 1 : ℕ) : ℚ) * p ≤ 0) := not_le.mpr hbpos
          have hmin : p ≤ ((j + 1 : ℕ) : ℚ) * p :=
            le_mul_of_one_le_left hp.le
              (by exact_mod_cast Nat.one_le_iff_ne_zero.mpr (Nat.succ_ne_zero j))
          have hstep :
              ((j + 1 : ℕ) : ℚ) * p -
                  min (p - ((j + 1 : ℕ) : ℚ) * p * 0) (((j + 1 : ℕ) : ℚ) * p) =
                ((j : ℕ) : ℚ) * p := by
            rw [mul_zero, sub_zero, min_eq_left hmin]
            push_cast
            ring
          rw [simulate, if_neg hguard]
          simp only [hstep]
          have hrec := ih (month + 1) j
          refine ⟨?_, ?_, ?_⟩
          · simp only [List.length_cons, hrec.1, Nat.succ_min_succ]
          · rw [hrec.2.1]
            have hnat : j - min j fuel = (j + 1) - min (j + 1) (fuel + 1) := by
              omega
            rw [hnat]
          · intro r hr
            rcases List.mem_cons.mp hr with hhead | htail
            · rw [hhead]
              exact mul_zero _
            · exact hrec.2.2 r htail

/-- Auxiliary: a zero APR accrues no monthly interest. -/
theorem monthlyRate_zero : monthlyRate 0 = 0 := by norm_num [monthlyRate]

/-- C6: plan with balance 10000, payment 500 and APR 0, under the
month-by-month simulation, pays off in exactly 20 months with zero total
interest. -/
theorem plan_ten_thousand_at_zero_apr :
    (plan 10000 500 0).months_to_payoff = some 20 ∧
      (plan 10000 500 0).total_interest = some 0 := by
  have hp : (0 : ℚ) < 500 := by norm_num
  have hz := simulate_zero_rate 500 hp maxPayoffMonths 1 20
  have hmin : min 20 maxPayoffMonths = 20 := by norm_num [maxPayoffMonths]
  have hb : (10000 : ℚ) = ((20 : ℕ) : ℚ) * 500 := by norm_num
  have h1 : ¬((500 : ℚ) ≤ 0 ∨ (10000 : ℚ) < 0) := by norm_num
  have h2 : (10000 : ℚ) ≠ 0 := by norm_num
  have h3 : ¬((500 : ℚ) ≤ 10000 * monthlyRate 0) := by
    rw [monthlyRate_zero]
    norm_num
  have hfin : (simulate (monthlyRate 0) 500 maxPayoffMonths 1 10000).2 = 0 := by
    rw [monthlyRate_zero, hb, hz.2.1, hmin]
    norm_num
  have hlen : (simulate (monthlyRate 0) 500 maxPayoffMonths 1 10000).1.length = 20 := by
    rw [monthlyRate_zero, hb, hz.1, hmin]
  have hint : ((simulate (monthlyRate 0) 500 maxPayoffMonths 1 10000).1.map
      (fun r => r.interest)).sum = 0 := by
    apply List.sum_eq_zero
    intro x hx
    rcases List.mem_map.mp hx with ⟨r, hrm, rfl⟩
    rw [monthlyRate_zero, hb] at hrm
    exact hz.2.2 r hrm
  simp only [plan, if_neg h1, if_neg h2, if_neg h3, if_pos hfin]
  refine ⟨?_, ?_⟩
  · rw [hlen]
  · rw [hint]

/-- C7: a payment at or below the first month's interest accrual on the
starting balance yields status payment_too_low with no schedule rows. -/
theorem plan_payment_too_low (b p a : ℚ) (hb : 0 < b) (hp : 0 < p)
    (h : p ≤ b * monthlyRate a) :
    (plan b p a).status = PlanStatus.payment_too_low ∧
      (plan b p a).schedule = [] := by
  have h1 : ¬(p ≤ 0 ∨ b < 0) := by
    push_neg
    exact ⟨hp, hb.le⟩
  have h2 : b ≠ 0 := hb.ne'
  simp only [plan, if_neg h1, if_neg h2, if_pos h]
  exact ⟨trivial, trivial⟩

/-- C7 witness: plan(balance 10000, payment 1, APR 36) has the payment (1)
below the first month's interest accrual (300), so payment_too_low. -/
theorem plan_payment_too_low_witness :
    (plan 10000 1 36).status = PlanStatus.payment_too_low ∧
      (plan 10000 1 36).schedule = [] :=
  plan_payment_too_low 10000 1 36 (by norm_num) (by norm_num)
    (by norm_num [monthlyRate])

/-- C8: when the simulation exhausts the 600-month cap without closing the
balance, plan returns max_months_exceeded together with the partial
schedule of exactly 600 rows (witnessed concretely by balance 1000000,
payment 1, APR 0); and the frontend planner card renders the schedule
table only when the status is ok or paid, showing the single
payment-too-low message for every other status. -/
theorem plan_cap_partial_schedule :
    (∀ b p a : ℚ, (plan b p a).status = PlanStatus.max_months_exceeded →
        (plan b p a).schedule.length = maxPayoffMonths) ∧
    (plan 1000000 1 0).status = PlanStatus.max_months_exceeded ∧
    (plan 1000000 1 0).schedule.length = maxPayoffMonths ∧
    (∀ d : PayoffPlan, d.status ≠ PlanStatus.ok → d.status ≠ PlanStatus.paid →
        renderPlanner (some d) = PlannerView.tooLowMessage) ∧
    (∀ d : PayoffPlan, d.status = PlanStatus.ok ∨ d.status = PlanStatus.paid →
        renderPlanner (some d) = PlannerView.scheduleTable (d.schedule.take 12)) := by
  have hcap : ∀ b p a : ℚ, (plan b p a).status = PlanStatus.max_months_exceeded →
      (plan b p a).schedule.length = maxPayoffMonths := by
    intro b p a h
    by_cases h1 : (p ≤ 0 ∨ b < 0)
    · simp only [plan, if_pos h1] at h
      exact PlanStatus.noConfusion h
    · by_cases h2 : b = 0
      · simp only [plan, if_neg h1, if_pos h2] at h
        exact PlanStatus.noConfusion h
      · by_cases h3 : p ≤ b * monthlyRate a
        · simp only [plan, if_neg h1, if_neg h2, if_pos h3] at h
          exact PlanStatus.noConfusion h
        · simp only [plan, if_neg h1, if_neg h2, if_neg h3] at h ⊢
          by_cases hfin : (simulate (monthlyRate a) p maxPayoffMonths 1 b).2 = 0
          · rw [if_pos hfin] at h
            exact PlanStatus.noConfusion h
          · rw [if_neg hfin]
            have hb0 : 0 ≤ b := not_lt.mp (fun hlt => h1 (Or.inr hlt))
            exact simulate_length (monthlyRate a) p maxPayoffMonths 1 b hb0 hfin
  have hp : (0 : ℚ) < 1 := by norm_num
  have hz := simulate_zero_rate 1 hp maxPayoffMonths 1 1000000
  have hmin : min 1000000 maxPayoffMonths = maxPayoffMonths := by
    norm_num [maxPayoffMonths]
  have hb : (1000000 : ℚ) = ((1000000 : ℕ) : ℚ) * 1 := by norm_num
  have h1 : ¬((1 : ℚ) ≤ 0 ∨ (1000000 : ℚ) < 0) := by norm_num
  have h2 : (1000000 : ℚ) ≠ 0 := by norm_num
  have h3 : ¬((1 : ℚ) ≤ 1000000 * monthlyRate 0) := by
    rw [monthlyRate_zero]
    norm_num
  have hfin : (simulate (monthlyRate 0) 1 maxPayoffMonths 1 1000000).2 ≠ 0 := by
    rw [monthlyRate_zero, hb, hz.2.1, hmin]
    norm_num [maxPayoffMonths]
  have hstat : (plan 1000000 1 0).status = PlanStatus.max_months_exceeded := by
    simp only [plan, if_neg h1, if_neg h2, if_neg h3, if_neg hfin]
  refine ⟨hcap, hstat, hcap 1000000 1 0 hstat, ?_, ?_⟩
  · intro d hok hpaid
    show (if d.status ≠ PlanStatus.ok ∧ d.status ≠ PlanStatus.paid then
        PlannerView.tooLowMessage
      else PlannerView.scheduleTable (d.schedule.take 12)) = PlannerView.tooLowMessage
    rw [if_pos ⟨hok, hpaid⟩]
  · intro d h
    show (if d.status ≠ PlanStatus.ok ∧ d.status ≠ PlanStatus.paid then
        PlannerView.tooLowMessage
      else PlannerView.scheduleTable (d.schedule.take 12)) =
        PlannerView.scheduleTable (d.schedule.take 12)
    rcases h with h | h
    · rw [if_neg (fun hc => hc.1 h)]
    · rw [if_neg (fun hc => hc.2 h)]

/-- Auxiliary: a ledger with no total-scope budget counts zero of them. -/
theorem countTotal_eq_zero_of_not_hasTotal (bs : List MBudget)
    (h : hasTotalBudget bs = false) : countTotal bs = 0 := by
  unfold hasTotalBudget at h
  unfold countTotal
  rw [List.length_eq_zero]
  rw [List.filter_eq_nil_iff]
  intro b hb
  rw [List.any_eq_false] at h
  exact h b hb

/-- C9: a request for a second total-scope budget is rejected at the write
boundary with the conflict signal leaving the budgets unchanged; the
at-most-one-total-scope invariant is preserved by every create; and the
settings form offers the 'total' scope option exactly when no total-scope
budget currently exists. -/
theorem budget_total_scope_unique :
    (∀ (bs : List MBudget) (n : Nat) (c : Option Nat) (l : ℚ),
        hasTotalBudget bs = true →
        createBudget bs n "total" c l = (BudgetWrite.conflict, bs)) ∧
    (∀ (bs : List MBudget) (n : Nat) (s : String) (c : Option Nat) (l : ℚ),
        countTotal bs ≤ 1 → countTotal (createBudget bs n s c l).2 ≤ 1) ∧
    (∀ bs : List MBudget,
        (hasTotalBudget bs = true → "total" ∉ scopeOptions bs) ∧
        (hasTotalBudget bs = false → "total" ∈ scopeOptions bs)) := by
  refine ⟨?_, ?_, ?_⟩
  · intro bs n c l h
    unfold createBudget
    rw [if_pos ⟨rfl, h⟩]
  · intro bs n s c l h
    unfold createBudget
    by_cases hc : (s = "total" ∧ bs.any (fun b => b.scope == "total") = true)
    · rw [if_pos hc]
      exact h
    · rw [if_neg hc]
      by_cases hs : s = "total"
      · have hany : bs.any (fun b => b.scope == "total") = false := by
          rcases Bool.eq_false_or_eq_true (bs.any (fun b => b.scope == "total")) with
            ht | hf
          · exact absurd ⟨hs, ht⟩ hc
          · exact hf
        have h0 : countTotal bs = 0 := countTotal_eq_zero_of_not_hasTotal bs hany
        simp only [countTotal, List.filter_cons] at h0 ⊢
        simp [hs, h0]
      · have hbeq : (s == "total") = false := beq_eq_false_iff_ne.mpr hs
        simp only [countTotal, List.filter_cons] at h ⊢
        simp only [hbeq, Bool.false_eq_true, if_neg]
        simpa using h
  · intro bs
    constructor
    · intro h
      unfold scopeOptions
      rw [h]
      simp
    · intro h
      unfold scopeOptions
      rw [h]
      simp

/-- Auxiliary: the Map update of the aggregation loop adds the incoming
amount to the total of the bucket values. -/
theorem sumPairs_upsert (k : String) (v : ℚ) :
    ∀ l : List (String × ℚ), sumPairs (upsert k v l) = sumPairs l + v
  | [] => by simp [upsert, sumPairs]
  | (k', v') :: rest => by
      by_cases hk : k' = k
      · simp only [upsert, if_pos hk, sumPairs, List.map_cons, List.sum_cons]
        ring
      · simp only [upsert, if_neg hk, sumPairs, List.map_cons, List.sum_cons]
        have h := sumPairs_upsert k v rest
        unfold sumPairs at h
        rw [h]
        ring

/-- Auxiliary: the aggregation fold preserves the total over any
accumulator. -/
theorem sumPairs_foldl (key : String → String) :
    ∀ (days : List SpendByDay) (acc : List (String × ℚ)),
      sumPairs (days.foldl
          (fun acc d => upsert (key d.day) d.total_amount acc) acc) =
        sumPairs acc + sumDays days
  | [], acc => by simp [sumDays, sumPairs]
  | d :: rest, acc => by
      simp only [List.foldl_cons]
      rw [sumPairs_foldl key rest (upsert (key d.day) d.total_amount acc)]
      rw [sumPairs_upsert]
      simp only [sumDays, List.map_cons, List.sum_cons]
      ring

/-- Auxiliary: the bucket map of the aggregation loop carries exactly the
total spend of the input days. -/
theorem sumPairs_groupSum (key : String → String) (days : List SpendByDay) :
    sumPairs (groupSum key days) = sumDays days := by
  unfold groupSum
  rw [sumPairs_foldl]
  simp [sumPairs]

/-- Auxiliary: sorting the bucket entries does not change their total. -/
theorem sumPairs_mergeSort (l : List (String × ℚ)) :
    sumPairs (l.mergeSort (fun a b => labelLe a.1 b.1)) = sumPairs l := by
  unfold sumPairs
  exact List.Perm.sum_eq (List.Perm.map _ (List.mergeSort_perm l _))

/-- Auxiliary: converting sorted entries to displayed buckets keeps the
total. -/
theorem sumBuckets_map_pairs (l : List (String × ℚ)) :
    sumBuckets (l.map (fun kv =>
      ({ label := kv.1, total_amount := kv.2 } : AggregatedBucket))) =
      sumPairs l := by
  unfold sumBuckets sumPairs
  rw [List.map_map]
  rfl

/-- Auxiliary: elimination form of the byte-wise comparator on cons cells. -/
theorem charListLe_cons_elim (x y : Char) (xs ys : List Char)
    (h : charListLe (x :: xs) (y :: ys) = true) :
    x.toNat < y.toNat ∨ (x.toNat = y.toNat ∧ charListLe xs ys = true) := by
  by_cases hxy : x.toNat < y.toNat
  · exact Or.inl hxy
  · by_cases hyx : y.toNat < x.toNat
    · rw [charListLe, if_neg hxy, if_pos hyx] at h
      exact Bool.noConfusion h
    · rw [charListLe, if_neg hxy, if_neg hyx] at h
      exact Or.inr ⟨by omega, h⟩

/-- Auxiliary: introduction form of the byte-wise comparator on cons
cells. -/
theorem charListLe_cons_intro (x y : Char) (xs ys : List Char)
    (h : x.toNat < y.toNat ∨ (x.toNat = y.toNat ∧ charListLe xs ys = true)) :
    charListLe (x :: xs) (y :: ys) = true := by
  rcases h with hlt | ⟨heq, hrec⟩
  · rw [charListLe, if_pos hlt]
  · have hxy : ¬ x.toNat < y.toNat := by omega
    have hyx : ¬ y.toNat < x.toNat := by omega
    rw [charListLe, if_neg hxy, if_neg hyx]
    exact hrec

/-- Auxiliary: the byte-wise comparator is transitive. -/
theorem charListLe_trans :
    ∀ a b c : List Char, charListLe a b = true → charListLe b c = true →
      charListLe a c = true
  | [], _, _, _, _ => rfl
  | x :: xs, [], _, h1, _ => by simp [charListLe] at h1
  | x :: xs, y :: ys, [], _, h2 => by simp [charListLe] at h2
  | x :: xs, y :: ys, z :: zs, h1, h2 => by
      rcases charListLe_cons_elim x y xs ys h1 with hxy | ⟨hxy, hrec1⟩
      · rcases charListLe_cons_elim y z ys zs h2 with hyz | ⟨hyz, _⟩
        · exact charListLe_cons_intro x z xs zs (Or.inl (by omega))
        · exact charListLe_cons_intro x z xs zs (Or.inl (by omega))
      · rcases charListLe_cons_elim y z ys zs h2 with hyz | ⟨hyz, hrec2⟩
        · exact charListLe_cons_intro x z xs zs (Or.inl (by omega))
        · exact charListLe_cons_intro x z xs zs
            (Or.inr ⟨by omega, charListLe_trans xs ys zs hrec1 hrec2⟩)

/-- Auxiliary: the byte-wise comparator is total. -/
theorem charListLe_total :
    ∀ a b : List Char, (charListLe a b || charListLe b a) = true
  | [], _ => by simp [charListLe]
  | _ :: _, [] => by simp [charListLe]
  | x :: xs, y :: ys => by
      rw [Bool.or_eq_true]
      by_cases hxy : x.toNat < y.toNat
      · exact Or.inl (charListLe_cons_intro x y xs ys (Or.inl hxy))
      · by_cases hyx : y.toNat < x.toNat
        · exact Or.inr (charListLe_cons_intro y x ys xs (Or.inl hyx))
        · have h := charListLe_total xs ys
          rw [Bool.or_eq_true] at h
          rcases h with h | h
          · exact Or.inl (charListLe_cons_intro x y xs ys (Or.inr ⟨by omega, h⟩))
          · exact Or.inr (charListLe_cons_intro y x ys xs (Or.inr ⟨by omega, h⟩))

/-- Auxiliary: the label comparator is transitive. -/
theorem labelLe_trans (a b c : String) (h1 : labelLe a b = true)
    (h2 : labelLe b c = true) : labelLe a c = true :=
  charListLe_trans a.data b.data c.data h1 h2

/-- Auxiliary: the label comparator is total. -/
theorem labelLe_total (a b : String) : (labelLe a b || labelLe b a) = true :=
  charListLe_total a.data b.data

/-- Auxiliary: the sorted bucket entries are pairwise ordered by label. -/
theorem pairwise_mergeSort_labelLe (l : List (String × ℚ)) :
    (l.mergeSort (fun a b => labelLe a.1 b.1)).Pairwise
      (fun a b => labelLe a.1 b.1 = true) := by
  refine List.sorted_mergeSort ?_ ?_ l
  · intro a b c h1 h2
    exact labelLe_trans a.1 b.1 c.1 h1 h2
  · intro a b
    exact labelLe_total a.1 b.1

/-- C10 counterexample: with the daily frequency the buckets are returned
in input order, so an unsorted input yields unsorted buckets: the claimed
ascending-label ordering fails at this concrete input. -/
theorem aggregate_daily_unsorted :
    ¬ ((aggregateByFrequency
          [⟨"2025-01-02", 1⟩, ⟨"2025-01-01", 2⟩] Frequency.daily).Pairwise
        (fun a b => labelLe a.label b.label = true)) := by
  intro h
  have h2 := List.rel_of_pairwise_cons h (List.mem_singleton.mpr rfl)
  revert h2
  decide

/-- C10 (amended): aggregateByFrequency preserves the total spend for every
frequency (so the displayed total is invariant under switching the
trend-chart frequency); for the weekly, monthly and yearly frequencies the
returned buckets are sorted in ascending label order; the daily frequency
returns the buckets in input order. -/
theorem aggregate_sum_and_sort :
    (∀ (days : List SpendByDay) (freq : Frequency),
        sumBuckets (aggregateByFrequency days freq) = sumDays days) ∧
    (∀ (days : List SpendByDay) (freq : Frequency), freq ≠ Frequency.daily →
        (aggregateByFrequency days freq).Pairwise
          (fun a b => labelLe a.label b.label = true)) ∧
    (∀ days : List SpendByDay,
        (aggregateByFrequency days Frequency.daily).map (fun b => b.label) =
          days.map (fun d => d.day)) := by
  refine ⟨?_, ?_, ?_⟩
  · intro days freq
    cases freq with
    | daily =>
        simp only [aggregateByFrequency, sumBuckets, sumDays, List.map_map]
        rfl
    | weekly =>
        simp only [aggregateByFrequency]
        rw [sumBuckets_map_pairs, sumPairs_mergeSort, sumPairs_groupSum]
    | monthly =>
        simp only [aggregateByFrequency]
        rw [sumBuckets_map_pairs, sumPairs_mergeSort, sumPairs_groupSum]
    | yearly =>
        simp only [aggregateByFrequency]
        rw [sumBuckets_map_pairs, sumPairs_mergeSort, sumPairs_groupSum]
  · intro days freq hne
    cases freq with
    | daily => exact absurd rfl hne
    | weekly =>
        simp only [aggregateByFrequency]
        exact List.Pairwise.map _ (fun a b h => h) (pairwise_mergeSort_labelLe _)
    | monthly =>
        simp only [aggregateByFrequency]
        exact List.Pairwise.map _ (fun a b h => h) (pairwise_mergeSort_labelLe _)
    | yearly =>
        simp only [aggregateByFrequency]
        exact List.Pairwise.map _ (fun a b h => h) (pairwise_mergeSort_labelLe _)
  · intro days
    simp only [aggregateByFrequency, List.map_map]
    rfl
